import Mathlib

set_option linter.unusedVariables false

namespace XCli

/-! Shallow embedding of the x-cli scheduling and delivery engine
    (src/xcli/util.py, src/xcli/schedule.py, src/xcli/runner.py,
    src/xcli/api.py).

    Modelling conventions:
    * Instants are integers counting seconds since an arbitrary epoch, UTC.
      A Python `datetime` localized to a timezone is represented by its wall
      clock reading in seconds (`wall = utc + offset`); a timezone by its
      fixed UTC offset in seconds (DST transitions are a detail of the
      external `dateutil.tz` collaborator and are not modelled).
    * ISO-8601 rendering of an instant (`datetime.isoformat`) is modelled by
      `toString` on the integer, which is injective like the real rendering.
    * `hashlib.sha256` is modelled by a deterministic rolling hash over the
      codepoint sequence; the engine relies only on the digest being a pure
      function of its input.
    * The single-process filesystem (schedule file, journal file, lock file)
      is an explicit `World` record threaded through the operations.
-/

/-- Job status values stored in the `status` field of a job record. -/
inductive Status
  | pending
  | in_progress
  | posted
  | failed
deriving DecidableEq, Repr

/-- A job record of the Job Store (`schedule.json`), with the fields built by
`add_job` in src/xcli/schedule.py. -/
structure Job where
  id : String
  text : String
  time_utc : Int
  tz : String
  status : Status
  attempt_count : Nat
  last_error : Option String
  posted_tweet_id : Option String
  idempotency_key : String
  created_at : Int
  updated_at : Int
deriving DecidableEq, Repr

/-- A journal line (`journal.jsonl`): either a delivery record appended by
`run_once` on a successful post, or a run-summary record appended at the end
of every run. -/
inductive JEntry
  | delivery (id : String) (idem : String) (tweet_id : String)
      (posted_at : Int) (source : String) (text : String)
  | run (started_at : Int) (posted_at : Int) (checked : Nat)
      (posted_count : Nat) (failed_count : Nat)
      (posted_ids : List String) (failed_ids : List String) (skipped : Bool)
deriving DecidableEq, Repr

/-- Field access `rec.get ("idempotency_key")` on a parsed journal line:
run-summary lines carry no such field. -/
def JEntry.idemKey : JEntry → Option String
  | .delivery _ idem _ _ _ _ => some idem
  | .run _ _ _ _ _ _ _ _ => none

/-- Field access `rec.get ("tweet_id")` filtered through Python truthiness as
used in `run_once`: an absent field or an empty string is falsy. -/
def JEntry.truthyTweetId : JEntry → Option String
  | .delivery _ _ tid _ _ _ => if tid = "" then none else some tid
  | .run _ _ _ _ _ _ _ _ => none

/-- The `id` field of a delivery journal line, if the line is one. -/
def JEntry.deliveryId : JEntry → Option String
  | .delivery i _ _ _ _ _ => some i
  | .run _ _ _ _ _ _ _ _ => none

/-- `journal_lookup_idempotency` (src/xcli/util.py:312-326): scan the journal
lines in file order and return the first record whose `idempotency_key`
field equals `key`. -/
def journal_lookup_idempotency (key : String) (journal : List JEntry) : Option JEntry :=
  journal.find? (fun rec => rec.idemKey == some key)

/-- One step of the rolling-hash model of `hashlib.sha256` over a stream of
codepoints. -/
def digestStep (acc : Nat) (b : Nat) : Nat :=
  (acc * 131 + b) % (2 ^ 64)

/-- `compute_idempotency_key` (src/xcli/util.py:400-407): deterministic digest
of `text`, a `"|"` separator byte, and the ISO rendering of the scheduled
instant, fed in that order. -/
def compute_idempotency_key (text : String) (time_utc_iso : String) : String :=
  toString (((text.data.map Char.toNat) ++ [124] ++
    (time_utc_iso.data.map Char.toNat)).foldl digestStep 5381)

/-- Model of `datetime.isoformat` on a UTC instant: an injective rendering to
the stored string form. -/
def isoOf (t : Int) : String := toString t

/-- JSON values, for modelling `json.load` results in the store-loading path
(src/xcli/util.py). -/
inductive Json
  | null
  | bool (b : Bool)
  | num (n : Int)
  | str (s : String)
  | arr (elems : List Json)
  | obj (fields : List (String × Json))
deriving Repr

/-- The on-disk state of a JSON document as seen by `read_json`: missing,
present but rejected by `json.load`, or parsed to a value. -/
inductive FileContent
  | absent
  | invalid
  | valid (j : Json)
deriving Repr

/-- `read_json` (src/xcli/util.py:43-50): the default when the file is
missing or `json.load` raises `JSONDecodeError`, the parsed value
otherwise. -/
def read_json (fc : FileContent) (dflt : Json) : Json :=
  match fc with
  | .absent => dflt
  | .invalid => dflt
  | .valid j => j

/-- Python exception classes that the store-loading path can raise. -/
inductive PyErr
  | typeError
  | keyError
deriving DecidableEq, Repr

/-- Substring test, modelling `needle in haystack` on Python strings. -/
def strContains (haystack needle : String) : Bool :=
  (haystack.splitOn needle).length > 1

/-- Python `key in data` on an arbitrary JSON value: key lookup on objects,
element equality on arrays, substring test on strings, and `TypeError` on
the remaining (non-container) values. -/
def jsonContains (d : Json) (k : String) : Except PyErr Bool :=
  match d with
  | .obj fields => .ok (fields.any (fun p => p.1 == k))
  | .arr elems => .ok (elems.any (fun e => match e with | .str s => s == k | _ => false))
  | .str s => .ok (strContains s k)
  | _ => .error .typeError

/-- Python `data[key]` with a string key: value lookup on objects (first
match; `json.load` never produces duplicate keys), `KeyError` when the key
is missing, `TypeError` on any non-dict value. -/
def jsonSubscript (d : Json) (k : String) : Except PyErr Json :=
  match d with
  | .obj fields =>
      match fields.find? (fun p => p.1 == k) with
      | some p => .ok p.2
      | none => .error .keyError
  | _ => .error .typeError

/-- Python `isinstance(v, list)` on a JSON value. -/
def Json.isList : Json → Bool
  | .arr _ => true
  | _ => false

/-- The empty snapshot document `{"jobs": []}`. -/
def emptySnapshot : Json := .obj [("jobs", .arr [])]

/-- `load_schedule` (src/xcli/util.py:291-296): read the schedule file with
the empty snapshot as default; if `"jobs" not in data or not
isinstance(data["jobs"], list)`, replace the result with the empty snapshot.
Python evaluates the containment test on whatever value parsed, so a scalar
JSON document makes the test itself raise `TypeError`. -/
def load_schedule (fc : FileContent) : Except PyErr Json :=
  let data := read_json fc emptySnapshot
  match jsonContains data "jobs" with
  | .error e => .error e
  | .ok contains =>
    if !contains then .ok emptySnapshot
    else
      match jsonSubscript data "jobs" with
      | .error e => .error e
      | .ok v => if !v.isList then .ok emptySnapshot else .ok data

/-- Scheduling-path error taxonomy: the "at least 5 minutes in the future"
`ValueError` (`TooSoon`), unparseable or out-of-range time input
(`InvalidTimeSpec`, raised by the external `dateutil` parser or by
`datetime.replace` range checks), and the unknown-job `KeyError`
(`NotFound`). -/
inductive Err
  | tooSoon
  | invalid
  | notFound
deriving DecidableEq, Repr

/-- Fixed-offset model of the `dateutil.tz.gettz` database, restricted to
the zone names the program references (offsets in seconds east of UTC,
without DST). Any other name resolves to `none`, as `gettz` does for an
unknown name. -/
def gettz : String → Option Int
  | "Asia/Hong_Kong" => some 28800
  | "Europe/Berlin" => some 3600
  | "America/New_York" => some (-18000)
  | "America/Los_Angeles" => some (-28800)
  | "UTC" => some 0
  | _ => none

/-- The Asia/Hong_Kong offset, the program's fallback zone. -/
def hkOffset : Int := 28800

/-- Python `str.upper()`, modelled character-wise over the codepoints. -/
def strUpper (s : String) : String := String.mk (s.data.map Char.toUpper)

/-- Python `str.lower()`, modelled character-wise over the codepoints. -/
def strLower (s : String) : String := String.mk (s.data.map Char.toLower)

/-- `default_tz_from_name` (src/xcli/util.py:74-81): no name, the empty
string, or the name "HKT" (any case) selects Asia/Hong_Kong; an unknown name
silently falls back to UTC. -/
def default_tz_from_name (name : Option String) : Int :=
  match name with
  | none => hkOffset
  | some n =>
    if n = "" || strUpper n = "HKT" then hkOffset
    else match gettz n with
      | some off => off
      | none => 0

/-- Python `tz_name or "HKT"`. -/
def orHKT : Option String → String
  | some n => if n = "" then "HKT" else n
  | none => "HKT"

/-- Seconds per day. -/
def daySecs : Int := 86400

/-- `dt.replace(hour=0, minute=0, second=0, microsecond=0)` on a wall-clock
reading: the midnight starting the same local day. -/
def dayStart (wall : Int) : Int := wall - wall % daySecs

/-- `dt.replace(hour=h, minute=m, second=0, microsecond=0)` on a wall-clock
reading. -/
def atHM (wall h m : Int) : Int := dayStart wall + h * 3600 + m * 60

/-- `_PRIME_WINDOWS` (src/xcli/util.py:144-150), timezone component. -/
def primeRegionTz : String → Option String
  | "EU" => some "Europe/Berlin"
  | "NY" => some "America/New_York"
  | "CA" => some "America/Los_Angeles"
  | "ASIA" => some "Asia/Hong_Kong"
  | _ => none

/-- `_PRIME_WINDOWS` (src/xcli/util.py:144-150), period component: start
hour and exclusive end hour of each window. -/
def primeHours : String → String → Option (Int × Int)
  | "EU", "morning" => some (8, 11)
  | "EU", "noon" => some (12, 14)
  | "EU", "evening" => some (18, 22)
  | "NY", "morning" => some (8, 11)
  | "NY", "noon" => some (12, 14)
  | "NY", "evening" => some (18, 22)
  | "CA", "morning" => some (8, 11)
  | "CA", "noon" => some (12, 14)
  | "CA", "evening" => some (18, 22)
  | "ASIA", "morning" => some (9, 12)
  | "ASIA", "noon" => some (12, 14)
  | "ASIA", "evening" => some (19, 22)
  | _, _ => none

/-- The token canonicalisation of `_match_region`: `re.sub` removing
whitespace, underscores and hyphens, then uppercasing. -/
def canonToken (token : String) : String :=
  String.mk ((token.data.filter
    (fun c => !(c = ' ' || c = '\t' || c = '_' || c = '-'))).map Char.toUpper)

/-- `_match_region` (src/xcli/util.py:160-165): canonicalise the token and
look it up in `_REGION_ALIASES` (the underscored aliases are kept from the
source even though canonicalisation makes them unreachable). -/
def _match_region (token : String) : Option String :=
  let t := canonToken token
  if t = "EU" || t = "EUROPE" then some "EU"
  else if t = "NY" || t = "NYC" || t = "NEWYORK" || t = "NEW_YORK" then some "NY"
  else if t = "CA" || t = "CALIFORNIA" || t = "SF" || t = "BAY" || t = "LA"
    || t = "LOSANGELES" || t = "LOS_ANGELES" then some "CA"
  else if t = "ASIA" || t = "HK" || t = "HONGKONG" || t = "HONG_KONG" || t = "SG"
    || t = "SINGAPORE" then some "ASIA"
  else none

/-- The surface grammar of a time spec string, as discriminated by the
regular expressions in `resolve_time_spec` and
`_resolve_prime_time_keyword`. `dayPfx = some n` models a leading
`"{n}d "` day-offset prefix stripped by the first regex. The `absolute`
form stands for any remaining string matching neither the prime-keyword
pattern nor `HH:MM`; it carries the calendar reading that the external
`dateutil` parser produces for it (wall clock seconds plus an optional
explicit UTC offset). -/
inductive RSpec
  | primeKeyword (region_raw : String) (part : String)
  | clock (h m : Nat)
  | absolute (wall : Int) (off : Option Int)
deriving DecidableEq, Repr

/-- A time spec string: optional day-offset prefix plus the remainder. -/
structure TSpec where
  dayPfx : Option Nat
  rest : RSpec
deriving DecidableEq, Repr

/-- Outcome of `_resolve_prime_time_keyword`: either not a recognised
keyword, or a concrete aware local instant (wall reading plus the fixed
offset of the window's zone) together with the zone's name. -/
inductive PrimeRes
  | noMatch
  | resolved (wall : Int) (off : Int) (tzName : String)
deriving DecidableEq, Repr

/-- The final in-window choice of `_resolve_prime_time_keyword`
(src/xcli/util.py:259-265), non-earliest case: the earliest second when at
most 60 seconds of window remain, otherwise `earliest` plus a uniform draw
over `[0, total - 60]` seconds (the draw modelled by reducing the integer
seed `rnd` into `randint`'s inclusive range). -/
def chooseTarget (rnd earliest2 end3 : Int) : Int :=
  let total := end3 - earliest2
  if total ≤ 60 then earliest2
  else earliest2 + rnd.emod (total - 60 + 1)

/-- The window-placement arithmetic of `_resolve_prime_time_keyword`
(src/xcli/util.py:197-266), once the region, period and timezone offsets
have been looked up: anchor the base day, fit the window into the anchor's
UTC day, pick `earliest`, apply the day-offset clamp, and choose the target
wall-clock second inside the window. `anchorOff` is the anchor timezone's
offset when an anchor is in effect. Returns the target as a wall reading in
the window's zone. -/
def primeCore (now rnd tzoff start_h end_h : Int)
    (prefer_earliest : Bool) (days_offset : Nat) (anchorOff : Option Int) :
    Except Err Int :=
  let now_local := now + tzoff
  let dOff : Int := (days_offset : Int)
  let anchorData : Option (Int × Int × Int) :=
    match anchorOff with
    | some aoff =>
      let uds := dayStart (now + aoff) + dOff * daySecs
      some (aoff, uds, uds + daySecs)
    | none => none
  let base_day :=
    match anchorData with
    | some x => dayStart (x.2.1 - x.1 + tzoff)
    | none => dayStart now_local + dOff * daySecs
  let start0 := base_day + start_h * 3600
  let end0 := base_day + end_h * 3600
  let se1 :=
    match anchorData with
    | some x =>
      let u_start_utc := x.2.1 - x.1
      let u_end_utc := x.2.2 - x.1
      let step := fun (q : Int × Int) =>
        if q.2 - tzoff < u_start_utc then (q.1 + daySecs, q.2 + daySecs)
        else if q.2 - tzoff ≥ u_end_utc then (q.1 - daySecs, q.2 - daySecs)
        else q
      step (step (start0, end0))
    | none => (start0, end0)
  let start1 := se1.1
  let end1 := se1.2
  if days_offset ≠ 0 ∧ dayStart start1 = dayStart now_local ∧ start1 ≤ now_local + 300 then
    .error Err.tooSoon
  else
  let sed : Int × Int × Int :=
    if days_offset = 0 then
      let e0 := max start1 (now_local + 300)
      if e0 ≥ end1 then (start1 + daySecs, end1 + daySecs, start1 + daySecs)
      else (start1, end1, e0)
    else (start1, end1, start1)
  let start2 := sed.1
  let end2 := sed.2.1
  let earliest := sed.2.2
  let ee :=
    if anchorOff.isSome ∧ days_offset > 0 then
      let min_dt_reg := now + dOff * daySecs + 300 + tzoff
      if earliest < min_dt_reg then
        if min_dt_reg ≥ end2 then (end2 + daySecs, start2 + daySecs)
        else (end2, min_dt_reg)
      else (end2, earliest)
    else (end2, earliest)
  let end3 := ee.1
  let earliest2 := ee.2
  let target := if prefer_earliest then earliest2 else chooseTarget rnd earliest2 end3
  .ok target

/-- `_resolve_prime_time_keyword` (src/xcli/util.py:168-266). `now` is the
UTC clock reading, `rnd` an arbitrary integer seed that models the
`random.randint` draw by reduction into the inclusive range. The Python
truthiness of `anchor_tz` (an empty string is falsy) is applied before
use. -/
def resolve_prime_time_keyword (now rnd : Int) (region_raw part0 : String)
    (prefer_earliest : Bool) (days_offset : Nat) (anchor_tz : Option String) :
    Except Err PrimeRes :=
  let p0 := strLower part0
  let part := if p0 = "non" then "noon" else p0
  match _match_region region_raw with
  | none => .ok .noMatch
  | some region =>
    match primeRegionTz region, primeHours region part with
    | some tz_name, some hs =>
      let tzoff := (gettz tz_name).getD 0
      let anchorName : Option String :=
        match anchor_tz with
        | some a => if a = "" then none else some a
        | none => none
      let anchorOff := anchorName.map (fun a => default_tz_from_name (some a))
      match primeCore now rnd tzoff hs.1 hs.2 prefer_earliest days_offset anchorOff with
      | .error e => .error e
      | .ok target => .ok (.resolved target tzoff tz_name)
    | _, _ => .ok .noMatch

/-- Result of `resolve_time_spec`: either a concrete aware local time (the
shorthand and prime-keyword branches) or the input string passed through
unchanged (the absolute branch), remembering whether the original string
still carries a day-offset prefix. -/
inductive Resolved
  | aware (wall : Int) (off : Int)
  | raw (r : RSpec) (hadDayPfx : Bool)
deriving DecidableEq, Repr

/-- `resolve_time_spec` (src/xcli/util.py:103-141): try the day-offset
prefix, then the prime-time keyword on the remainder, then `HH:MM` — the
`HH:MM` regex is applied to the original string, so a day-offset prefix
makes that branch unreachable — and otherwise pass the string through.
Returns (resolved, tz_used, was_shorthand). -/
def resolve_time_spec (now rnd : Int) (ts : TSpec) (tz_name : Option String) :
    Except Err (Resolved × String × Bool) :=
  let tz_used := orHKT tz_name
  let days_offset := ts.dayPfx.getD 0
  match ts.rest with
  | .primeKeyword region_raw part =>
    match resolve_prime_time_keyword now rnd region_raw part false days_offset (some tz_used) with
    | .error e => .error e
    | .ok (.resolved wall off tzn) =>
        .ok (.aware wall off, (if tzn = "" then tz_used else tzn), true)
    | .ok .noMatch =>
        .ok (.raw ts.rest ts.dayPfx.isSome, tz_used, false)
  | .clock h m =>
    if ts.dayPfx.isSome then
      .ok (.raw ts.rest true, tz_used, false)
    else
      let tzoff := default_tz_from_name (some tz_used)
      let now_local := now + tzoff
      if h ≥ 24 ∨ m ≥ 60 then .error Err.invalid
      else
        let target0 := atHM now_local (h : Int) (m : Int)
        let target1 := if target0 ≤ now_local then target0 + daySecs else target0
        let target2 :=
          if days_offset ≠ 0 then target1 + ((days_offset : Int) - 1) * daySecs else target1
        if target2 ≤ now_local + 300 then .error Err.tooSoon
        else .ok (.aware target2 tzoff, tz_used, true)
  | .absolute _ _ => .ok (.raw ts.rest ts.dayPfx.isSome, tz_used, false)

/-- `parse_time_to_utc` (src/xcli/util.py:84-100): normalise via
`resolve_time_spec`, parse the local ISO string (an aware wall time for the
shorthand branches, the raw input otherwise — `dateutil` rejects strings
still carrying a day-offset prefix), attach the target timezone only when no
explicit offset is present, and convert to UTC. Returns the UTC instant and
the reported tz name. -/
def parse_time_to_utc (now rnd : Int) (ts : TSpec) (tz_name : Option String) :
    Except Err (Int × String) :=
  match resolve_time_spec now rnd ts tz_name with
  | .error e => .error e
  | .ok rt =>
    let tz_resolved := rt.2.1
    let tzoff := default_tz_from_name (some tz_resolved)
    let reported := orHKT (some tz_resolved)
    match rt.1 with
    | .aware wall off => .ok (wall - off, reported)
    | .raw r hadPfx =>
      if hadPfx then .error Err.invalid
      else match r with
        | .absolute wall (some off) => .ok (wall - off, reported)
        | .absolute wall none => .ok (wall - tzoff, reported)
        | _ => .error Err.invalid

/-- The decoded schedule snapshot `{"jobs": [...]}`. The load/save
round-trip through the store file is the identity on the snapshot, so the
lifecycle operations below act on the snapshot directly. -/
structure Schedule where
  jobs : List Job
deriving DecidableEq, Repr

/-- `add_job` (src/xcli/schedule.py:17-40): resolve the time spec, reject an
instant at most 5 minutes in the future, build the job with a fresh id
(`newId` models `gen_id()`) and the idempotency key computed from
`(text, time_utc)`, append it to the snapshot. -/
def add_job (now rnd : Int) (newId : String) (schedule : Schedule)
    (text : String) (atSpec : TSpec) (tz_name : Option String) :
    Except Err (Schedule × Job) :=
  match parse_time_to_utc now rnd atSpec tz_name with
  | .error e => .error e
  | .ok (time_utc, tz_used) =>
    if time_utc ≤ now + 300 then .error Err.tooSoon
    else
      let idem := compute_idempotency_key text (isoOf time_utc)
      let job : Job :=
        { id := newId, text := text, time_utc := time_utc, tz := tz_used,
          status := .pending, attempt_count := 0, last_error := none,
          posted_tweet_id := none, idempotency_key := idem,
          created_at := now, updated_at := now }
      .ok ({ jobs := schedule.jobs ++ [job] }, job)

/-- The job-list traversal of `update_job`: the first job with a matching id
is mutated in place, the rest of the list is untouched; `NotFound`
(`KeyError`) when no job matches. -/
def update_job_go (now rnd : Int) (job_id : String) (text : Option String)
    (atSpec : Option TSpec) (tz_name : Option String) :
    List Job → Except Err (List Job × Job)
  | [] => .error Err.notFound
  | j :: rest =>
    if j.id = job_id then
      let j1 := match text with
        | some t => { j with text := t }
        | none => j
      let j2E : Except Err Job := match atSpec with
        | some a =>
            match parse_time_to_utc now rnd a (some (orHKT tz_name)) with
            | .error e => .error e
            | .ok tt => .ok { j1 with time_utc := tt.1, tz := tt.2 }
        | none => .ok j1
      match j2E with
      | .error e => .error e
      | .ok j2 =>
        let j3 := { j2 with
          idempotency_key := compute_idempotency_key j2.text (isoOf j2.time_utc),
          updated_at := now }
        .ok (j3 :: rest, j3)
    else
      match update_job_go now rnd job_id text atSpec tz_name rest with
      | .error e => .error e
      | .ok rr => .ok (j :: rr.1, rr.2)

/-- `update_job` (src/xcli/schedule.py:61-78): mutate only the provided
fields; a new time spec is re-anchored to the supplied tz or the `"HKT"`
fallback (not the job's stored tz); the idempotency key is recomputed
unconditionally on the updated record. -/
def update_job (now rnd : Int) (schedule : Schedule) (job_id : String)
    (text : Option String) (atSpec : Option TSpec) (tz_name : Option String) :
    Except Err (Schedule × Job) :=
  match update_job_go now rnd job_id text atSpec tz_name schedule.jobs with
  | .error e => .error e
  | .ok rr => .ok ({ jobs := rr.1 }, rr.2)

/-- Outcome of one `post_tweet` call as seen by `run_once`: the collaborator
either returns a tweet id or raises `ApiError` with a message
(src/xcli/api.py:101-138, the posting-client contract). Outcomes are
indexed by the call number within the run, so distinct calls may behave
differently. -/
inductive PostOutcome
  | ok (tweet_id : String)
  | apiErr (msg : String)
deriving DecidableEq, Repr

/-- The lock record stored in `runner.lock` (src/xcli/util.py:410-437). -/
structure LockInfo where
  pid : Nat
  started_at : Int
  last_heartbeat : Int
deriving DecidableEq, Repr

/-- Durable state seen by the delivery engine: the decoded schedule file,
the journal file, and the lock file (`none` when absent). -/
structure World where
  jobs : List Job
  journal : List JEntry
  lock : Option LockInfo
deriving DecidableEq, Repr

/-- Observable effects of one `run_once` invocation, in program order.
`postCall` tags the collaborator call with the id of the job that triggered
it; `markPosted`/`markFailed` record the in-memory status mutations of the
job record; `save` is the single whole-snapshot store write. -/
inductive Ev
  | postCall (jobId : String) (text : String)
  | journalAppend (e : JEntry)
  | markPosted (jobId : String)
  | markFailed (jobId : String)
  | save (jobs : List Job)
  | heartbeat
deriving DecidableEq, Repr

/-- In-flight loop state of `run_once`: collaborator calls made so far, the
journal file contents (idempotency lookups during the loop see entries
appended earlier in the same run), the accumulated effect trace, and the
posted/failed id lists. -/
structure RunState where
  calls : Nat
  journal : List JEntry
  trace : List Ev
  posted : List String
  failed : List String
deriving DecidableEq, Repr

/-- The due filter of `run_once` (src/xcli/runner.py:41): status `pending`
and scheduled instant at or before now. -/
def dueP (now : Int) (j : Job) : Bool :=
  j.status == .pending && decide (j.time_utc ≤ now)

/-- The idempotency short-circuit check opening the loop body of `run_once`
(src/xcli/runner.py:47-51): a truthy `idempotency_key` with a journal match
carrying a truthy `tweet_id` yields that tweet id. -/
def shortcutOf (st : RunState) (j : Job) : Option String :=
  if j.idempotency_key ≠ "" then
    match journal_lookup_idempotency j.idempotency_key st.journal with
    | some r => r.truthyTweetId
    | none => none
  else none

/-- The body of the due-jobs loop of `run_once` (src/xcli/runner.py:46-84)
applied to one due job: short-circuit via the journal idempotency lookup
when possible (no collaborator call, no heartbeat — `continue` skips the
`try/finally`), otherwise go through `in_progress`, call the collaborator,
and either journal-then-mark-posted or mark-failed, bumping the heartbeat
either way. -/
def stepJob (post : Nat → PostOutcome) (now : Int) (st : RunState) (j : Job) :
    Job × RunState :=
  match shortcutOf st j with
  | some tid =>
      ({ j with status := .posted, posted_tweet_id := some tid, updated_at := now },
       { st with
          trace := st.trace ++ [.markPosted j.id],
          posted := st.posted ++ [j.id] })
  | none =>
      let j1 := { j with status := .in_progress, attempt_count := j.attempt_count + 1 }
      match post st.calls with
      | .ok tid =>
          let entry : JEntry := .delivery j.id j.idempotency_key tid now "scheduled" j.text
          let j2 := { j1 with
            status := .posted, posted_tweet_id := some tid,
            last_error := none, updated_at := now }
          (j2, { st with
                  calls := st.calls + 1,
                  journal := st.journal ++ [entry],
                  trace := st.trace ++ [.postCall j.id j.text, .journalAppend entry,
                    .markPosted j.id, .heartbeat],
                  posted := st.posted ++ [j.id] })
      | .apiErr msg =>
          let j2 := { j1 with status := .failed, last_error := some msg, updated_at := now }
          (j2, { st with
                  calls := st.calls + 1,
                  trace := st.trace ++ [.postCall j.id j.text, .markFailed j.id, .heartbeat],
                  failed := st.failed ++ [j.id] })

/-- The due-jobs loop of `run_once`: jobs are visited in stored order, due
jobs are processed in place, the others are untouched (the `due` list is a
filtered list of references into the snapshot, so in-place mutation updates
the snapshot positionally). -/
def runJobs (post : Nat → PostOutcome) (now : Int) (st : RunState) :
    List Job → List Job × RunState
  | [] => ([], st)
  | j :: rest =>
    if dueP now j then
      let p := stepJob post now st j
      let q := runJobs post now p.2 rest
      (p.1 :: q.1, q.2)
    else
      let q := runJobs post now st rest
      (j :: q.1, q.2)

/-- Return value of `run_once`, including the existing lock info reported on
contention. -/
structure RunRes where
  ok : Bool
  reason : Option String
  info : Option LockInfo
  posted : List String
  failed : List String
  checked : Nat
deriving DecidableEq, Repr

/-- `run_once` (src/xcli/runner.py:30-106): attempt lock acquisition and
return `runner_active` with the existing record on contention; otherwise
load the snapshot, heartbeat, process the due jobs, save the snapshot once,
append one run-summary journal entry, heartbeat, and release the lock.
Returns the result record, the final durable state, and the effect trace. -/
def run_once (post : Nat → PostOutcome) (pid : Nat) (now : Int) (w : World) :
    RunRes × World × List Ev :=
  match w.lock with
  | some existing =>
      ({ ok := false, reason := some "runner_active", info := some existing,
         posted := [], failed := [], checked := 0 }, w, [])
  | none =>
      let due := w.jobs.filter (dueP now)
      let st0 : RunState := { calls := 0, journal := w.journal, trace := [.heartbeat], posted := [], failed := [] }
      let res := runJobs post now st0 w.jobs
      let jobs' := res.1
      let st := res.2
      let summary : JEntry := .run now now due.length st.posted.length st.failed.length
        st.posted st.failed (due.length == 0 && st.posted.isEmpty && st.failed.isEmpty)
      ({ ok := true, reason := none, info := none, posted := st.posted,
         failed := st.failed, checked := due.length },
       { jobs := jobs', journal := st.journal ++ [summary], lock := none },
       st.trace ++ [.save jobs', .journalAppend summary, .heartbeat])

/-- Iterate `run_once` over its durable state, with arbitrary collaborator
behaviour, pid and clock at each invocation. -/
def runMany : List ((Nat → PostOutcome) × Nat × Int) → World → World
  | [], w => w
  | p :: rest, w => runMany rest (run_once p.1 p.2.1 p.2.2 w).2.1

/-! Helper lemmas about the delivery-engine embedding. -/

lemma find?_append_left {α : Type} {p : α → Bool} {l1 : List α} (l2 : List α) {r : α}
    (h : l1.find? p = some r) : (l1 ++ l2).find? p = some r := by
  induction l1 with
  | nil => simp [List.find?] at h
  | cons a t ih =>
    by_cases hp : p a
    · rw [List.find?_cons_of_pos _ hp] at h
      rw [List.cons_append, List.find?_cons_of_pos _ hp]
      exact h
    · rw [List.find?_cons_of_neg _ hp] at h
      rw [List.cons_append, List.find?_cons_of_neg _ hp]
      exact ih h

lemma journal_lookup_append {k : String} {J0 : List JEntry} (t : List JEntry) {r : JEntry}
    (h : journal_lookup_idempotency k J0 = some r) :
    journal_lookup_idempotency k (J0 ++ t) = some r :=
  find?_append_left t h

/-- A job whose idempotency key already has a truthy journal match in `J0`:
such a job takes the short-circuit path of the loop whenever the live
journal extends `J0`. -/
def shortcutOK (J0 : List JEntry) (j : Job) : Prop :=
  j.idempotency_key ≠ "" ∧
    ∃ r, journal_lookup_idempotency j.idempotency_key J0 = some r ∧ r.truthyTweetId.isSome

lemma shortcutOf_of_lookup {st : RunState} {j : Job} {r : JEntry} {tid : String}
    (hk : j.idempotency_key ≠ "")
    (hl : journal_lookup_idempotency j.idempotency_key st.journal = some r)
    (ht : r.truthyTweetId = some tid) :
    shortcutOf st j = some tid := by
  simp [shortcutOf, hk, hl, ht]

lemma not_shortcutOK_of_none {st : RunState} {j : Job} {J0 t0 : List JEntry}
    (hJ : st.journal = J0 ++ t0) (h : shortcutOf st j = none) :
    ¬ shortcutOK J0 j := by
  rintro ⟨hk, r, hl, ht⟩
  have hl2 : journal_lookup_idempotency j.idempotency_key st.journal = some r := by
    rw [hJ]; exact journal_lookup_append t0 hl
  rcases Option.isSome_iff_exists.mp ht with ⟨tid, htid⟩
  rw [shortcutOf_of_lookup hk hl2 htid] at h
  exact Option.noConfusion h

lemma stepJob_of_shortcut {post : Nat → PostOutcome} {now : Int} {st : RunState}
    {j : Job} {tid : String} (h : shortcutOf st j = some tid) :
    stepJob post now st j =
      ({ j with status := .posted, posted_tweet_id := some tid, updated_at := now },
       { st with
          trace := st.trace ++ [.markPosted j.id],
          posted := st.posted ++ [j.id] }) := by
  unfold stepJob
  rw [h]

lemma stepJob_of_post_ok {post : Nat → PostOutcome} {now : Int} {st : RunState}
    {j : Job} {tid : String} (h : shortcutOf st j = none)
    (hp : post st.calls = .ok tid) :
    stepJob post now st j =
      ({ j with
          status := .posted, attempt_count := j.attempt_count + 1,
          posted_tweet_id := some tid, last_error := none, updated_at := now },
       { st with
          calls := st.calls + 1,
          journal := st.journal ++
            [.delivery j.id j.idempotency_key tid now "scheduled" j.text],
          trace := st.trace ++ [.postCall j.id j.text,
            .journalAppend (.delivery j.id j.idempotency_key tid now "scheduled" j.text),
            .markPosted j.id, .heartbeat],
          posted := st.posted ++ [j.id] }) := by
  unfold stepJob
  rw [h, hp]

lemma stepJob_of_post_err {post : Nat → PostOutcome} {now : Int} {st : RunState}
    {j : Job} {msg : String} (h : shortcutOf st j = none)
    (hp : post st.calls = .apiErr msg) :
    stepJob post now st j =
      ({ j with
          status := .failed, attempt_count := j.attempt_count + 1,
          last_error := some msg, updated_at := now },
       { st with
          calls := st.calls + 1,
          trace := st.trace ++ [.postCall j.id j.text, .markFailed j.id, .heartbeat],
          failed := st.failed ++ [j.id] }) := by
  unfold stepJob
  rw [h, hp]

lemma stepJob_status_terminal (post : Nat → PostOutcome) (now : Int) (st : RunState)
    (j : Job) :
    (stepJob post now st j).1.status = Status.posted ∨
      (stepJob post now st j).1.status = Status.failed := by
  cases hsc : shortcutOf st j with
  | some tid => rw [stepJob_of_shortcut hsc]; left; rfl
  | none =>
    cases hp : post st.calls with
    | ok tid => rw [stepJob_of_post_ok hsc hp]; left; rfl
    | apiErr msg => rw [stepJob_of_post_err hsc hp]; right; rfl

lemma stepJob_journal_extends (post : Nat → PostOutcome) (now : Int) (st : RunState)
    (j : Job) :
    ∃ t, (stepJob post now st j).2.journal = st.journal ++ t := by
  cases hsc : shortcutOf st j with
  | some tid => exact ⟨[], by rw [stepJob_of_shortcut hsc]; simp⟩
  | none =>
    cases hp : post st.calls with
    | ok tid =>
      exact ⟨[.delivery j.id j.idempotency_key tid now "scheduled" j.text],
        by rw [stepJob_of_post_ok hsc hp]⟩
    | apiErr msg => exact ⟨[], by rw [stepJob_of_post_err hsc hp]; simp⟩

lemma runJobs_nil (post : Nat → PostOutcome) (now : Int) (st : RunState) :
    runJobs post now st [] = ([], st) := rfl

lemma runJobs_cons_due {now : Int} {j : Job} (post : Nat → PostOutcome)
    (st : RunState) (rest : List Job) (h : dueP now j = true) :
    runJobs post now st (j :: rest) =
      ((stepJob post now st j).1 :: (runJobs post now (stepJob post now st j).2 rest).1,
       (runJobs post now (stepJob post now st j).2 rest).2) := by
  simp [runJobs, h]

lemma runJobs_cons_not_due {now : Int} {j : Job} (post : Nat → PostOutcome)
    (st : RunState) (rest : List Job) (h : dueP now j = false) :
    runJobs post now st (j :: rest) =
      (j :: (runJobs post now st rest).1, (runJobs post now st rest).2) := by
  simp [runJobs, h]

lemma runJobs_length (post : Nat → PostOutcome) (now : Int) :
    ∀ (js : List Job) (st : RunState), (runJobs post now st js).1.length = js.length := by
  intro js
  induction js with
  | nil => intro st; rfl
  | cons j rest ih =>
    intro st
    cases h : dueP now j with
    | true => rw [runJobs_cons_due post st rest h]; simp [ih]
    | false => rw [runJobs_cons_not_due post st rest h]; simp [ih]

lemma runJobs_append (post : Nat → PostOutcome) (now : Int) :
    ∀ (xs ys : List Job) (st : RunState),
      runJobs post now st (xs ++ ys) =
        ((runJobs post now st xs).1 ++
           (runJobs post now (runJobs post now st xs).2 ys).1,
         (runJobs post now (runJobs post now st xs).2 ys).2) := by
  intro xs
  induction xs with
  | nil => intro ys st; simp [runJobs]
  | cons x t ih =>
    intro ys st
    cases h : dueP now x with
    | true =>
      rw [List.cons_append, runJobs_cons_due post st (t ++ ys) h,
        runJobs_cons_due post st t h]
      simp [ih]
    | false =>
      rw [List.cons_append, runJobs_cons_not_due post st (t ++ ys) h,
        runJobs_cons_not_due post st t h]
      simp [ih]

lemma runJobs_journal_extends (post : Nat → PostOutcome) (now : Int) :
    ∀ (js : List Job) (st : RunState),
      ∃ t, (runJobs post now st js).2.journal = st.journal ++ t := by
  intro js
  induction js with
  | nil => intro st; exact ⟨[], by simp [runJobs]⟩
  | cons j rest ih =>
    intro st
    cases h : dueP now j with
    | true =>
      rw [runJobs_cons_due post st rest h]
      rcases stepJob_journal_extends post now st j with ⟨t1, h1⟩
      rcases ih (stepJob post now st j).2 with ⟨t2, h2⟩
      exact ⟨t1 ++ t2, by rw [h2, h1, List.append_assoc]⟩
    | false =>
      rw [runJobs_cons_not_due post st rest h]
      exact ih st

lemma runJobs_new_delivery (post : Nat → PostOutcome) (now : Int) (J0 : List JEntry) :
    ∀ (js : List Job) (st : RunState), (∃ t0, st.journal = J0 ++ t0) →
      ∀ e ∈ (runJobs post now st js).2.journal,
        e ∈ st.journal ∨ ∃ jb, jb ∈ js ∧ e.deliveryId = some jb.id ∧ ¬ shortcutOK J0 jb := by
  intro js
  induction js with
  | nil => intro st hpre e he; left; exact he
  | cons j rest ih =>
    intro st hpre e he
    cases hd : dueP now j with
    | false =>
      rw [runJobs_cons_not_due post st rest hd] at he
      rcases ih st hpre e he with h | ⟨jb, hjb, hid, hsc⟩
      · left; exact h
      · right; exact ⟨jb, List.mem_cons_of_mem _ hjb, hid, hsc⟩
    | true =>
      rw [runJobs_cons_due post st rest hd] at he
      rcases hpre with ⟨t0, ht0⟩
      cases hsc : shortcutOf st j with
      | some tid =>
        rw [stepJob_of_shortcut hsc] at he
        rcases ih { st with
            trace := st.trace ++ [.markPosted j.id],
            posted := st.posted ++ [j.id] } ⟨t0, ht0⟩ e he with h | ⟨jb, hjb, hid, hnsc⟩
        · left; exact h
        · right; exact ⟨jb, List.mem_cons_of_mem _ hjb, hid, hnsc⟩
      | none =>
        have hnsc : ¬ shortcutOK J0 j := not_shortcutOK_of_none ht0 hsc
        cases hp : post st.calls with
        | ok tid =>
          rw [stepJob_of_post_ok hsc hp] at he
          rcases ih _ ⟨t0 ++ [.delivery j.id j.idempotency_key tid now "scheduled" j.text],
              by simp [ht0]⟩ e he with h | ⟨jb, hjb, hid, hn⟩
          · rcases List.mem_append.mp h with h1 | h2
            · left; exact h1
            · right
              refine ⟨j, List.mem_cons_self _ _, ?_, hnsc⟩
              rcases List.mem_singleton.mp h2 with rfl
              rfl
          · right; exact ⟨jb, List.mem_cons_of_mem _ hjb, hid, hn⟩
        | apiErr msg =>
          rw [stepJob_of_post_err hsc hp] at he
          rcases ih { st with
              calls := st.calls + 1,
              trace := st.trace ++ [.postCall j.id j.text, .markFailed j.id, .heartbeat],
              failed := st.failed ++ [j.id] } ⟨t0, ht0⟩ e he with h | ⟨jb, hjb, hid, hn⟩
          · left; exact h
          · right; exact ⟨jb, List.mem_cons_of_mem _ hjb, hid, hn⟩

lemma runJobs_postCall_mem (post : Nat → PostOutcome) (now : Int) (J0 : List JEntry) :
    ∀ (js : List Job) (st : RunState), (∃ t0, st.journal = J0 ++ t0) →
      ∀ i txt, Ev.postCall i txt ∈ (runJobs post now st js).2.trace →
        Ev.postCall i txt ∈ st.trace ∨ ∃ jb, jb ∈ js ∧ i = jb.id ∧ ¬ shortcutOK J0 jb := by
  intro js
  induction js with
  | nil => intro st hpre i txt he; left; exact he
  | cons j rest ih =>
    intro st hpre i txt he
    cases hd : dueP now j with
    | false =>
      rw [runJobs_cons_not_due post st rest hd] at he
      rcases ih st hpre i txt he with h | ⟨jb, hjb, hid, hsc⟩
      · left; exact h
      · right; exact ⟨jb, List.mem_cons_of_mem _ hjb, hid, hsc⟩
    | true =>
      rw [runJobs_cons_due post st rest hd] at he
      rcases hpre with ⟨t0, ht0⟩
      cases hsc : shortcutOf st j with
      | some tid =>
        rw [stepJob_of_shortcut hsc] at he
        rcases ih { st with
            trace := st.trace ++ [.markPosted j.id],
            posted := st.posted ++ [j.id] } ⟨t0, ht0⟩ i txt he with h | ⟨jb, hjb, hid, hnsc⟩
        · rcases List.mem_append.mp h with h1 | h2
          · left; exact h1
          · rcases List.mem_singleton.mp h2 with h2
            exact absurd h2 (by simp)
        · right; exact ⟨jb, List.mem_cons_of_mem _ hjb, hid, hnsc⟩
      | none =>
        have hnsc : ¬ shortcutOK J0 j := not_shortcutOK_of_none ht0 hsc
        cases hp : post st.calls with
        | ok tid =>
          rw [stepJob_of_post_ok hsc hp] at he
          rcases ih _ ⟨t0 ++ [.delivery j.id j.idempotency_key tid now "scheduled" j.text],
              by simp [ht0]⟩ i txt he with h | ⟨jb, hjb, hid, hn⟩
          · rcases List.mem_append.mp h with h1 | h2
            · left; exact h1
            · right
              refine ⟨j, List.mem_cons_self _ _, ?_, hnsc⟩
              simp at h2
              rcases h2 with ⟨h2, -⟩
              exact h2
          · right; exact ⟨jb, List.mem_cons_of_mem _ hjb, hid, hn⟩
        | apiErr msg =>
          rw [stepJob_of_post_err hsc hp] at he
          rcases ih { st with
              calls := st.calls + 1,
              trace := st.trace ++ [.postCall j.id j.text, .markFailed j.id, .heartbeat],
              failed := st.failed ++ [j.id] } ⟨t0, ht0⟩ i txt he with h | ⟨jb, hjb, hid, hn⟩
          · rcases List.mem_append.mp h with h1 | h2
            · left; exact h1
            · right
              refine ⟨j, List.mem_cons_self _ _, ?_, hnsc⟩
              simp at h2
              rcases h2 with ⟨h2, -⟩
              exact h2
          · right; exact ⟨jb, List.mem_cons_of_mem _ hjb, hid, hn⟩

/-- Well-formed per-job effect blocks, as emitted by the due-jobs loop: a
short-circuit marks the job posted with no other effect; a successful
delivery calls the collaborator, appends the delivery journal entry for that
job, *then* marks it posted, then heartbeats; a failed delivery calls the
collaborator, marks the job failed, then heartbeats. -/
inductive BlocksOK : List Ev → Prop
  | nil : BlocksOK []
  | shortcut (i : String) (t : List Ev) : BlocksOK t →
      BlocksOK (.markPosted i :: t)
  | success (i txt : String) (e : JEntry) (t : List Ev) :
      e.deliveryId = some i → BlocksOK t →
      BlocksOK (.postCall i txt :: .journalAppend e :: .markPosted i :: .heartbeat :: t)
  | failure (i txt : String) (t : List Ev) : BlocksOK t →
      BlocksOK (.postCall i txt :: .markFailed i :: .heartbeat :: t)

lemma BlocksOK.append : ∀ {a b : List Ev}, BlocksOK a → BlocksOK b → BlocksOK (a ++ b) := by
  intro a b ha hb
  induction ha with
  | nil => simpa using hb
  | shortcut i t ht ih => exact .shortcut i _ ih
  | success i txt e t he ht ih => exact .success i txt e _ he ih
  | failure i txt t ht ih => exact .failure i txt _ ih

lemma BlocksOK.no_save : ∀ {b : List Ev}, BlocksOK b → ∀ js, Ev.save js ∉ b := by
  intro b hb
  induction hb with
  | nil => intro js h; exact absurd h (List.not_mem_nil _)
  | shortcut i t ht ih =>
    intro js h
    rcases List.mem_cons.mp h with h1 | h2
    · exact Ev.noConfusion h1
    · exact ih js h2
  | success i txt e t he ht ih =>
    intro js h
    simp only [List.mem_cons] at h
    rcases h with h | h | h | h | h
    all_goals first
      | exact Ev.noConfusion h
      | exact ih js h
  | failure i txt t ht ih =>
    intro js h
    simp only [List.mem_cons] at h
    rcases h with h | h | h | h
    all_goals first
      | exact Ev.noConfusion h
      | exact ih js h

lemma runJobs_trace_decomp (post : Nat → PostOutcome) (now : Int) :
    ∀ (js : List Job) (st : RunState),
      ∃ b, (runJobs post now st js).2.trace = st.trace ++ b ∧ BlocksOK b := by
  intro js
  induction js with
  | nil => intro st; exact ⟨[], by simp [runJobs], .nil⟩
  | cons j rest ih =>
    intro st
    cases hd : dueP now j with
    | false =>
      rw [runJobs_cons_not_due post st rest hd]
      exact ih st
    | true =>
      rw [runJobs_cons_due post st rest hd]
      cases hsc : shortcutOf st j with
      | some tid =>
        rw [stepJob_of_shortcut hsc]
        rcases ih _ with ⟨b, hb, hok⟩
        refine ⟨.markPosted j.id :: b, ?_, .shortcut _ _ hok⟩
        rw [hb]
        simp
      | none =>
        cases hp : post st.calls with
        | ok tid =>
          rw [stepJob_of_post_ok hsc hp]
          rcases ih _ with ⟨b, hb, hok⟩
          refine ⟨.postCall j.id j.text ::
            .journalAppend (.delivery j.id j.idempotency_key tid now "scheduled" j.text) ::
            .markPosted j.id :: .heartbeat :: b, ?_, .success _ _ _ _ rfl hok⟩
          rw [hb]
          simp
        | apiErr msg =>
          rw [stepJob_of_post_err hsc hp]
          rcases ih _ with ⟨b, hb, hok⟩
          refine ⟨.postCall j.id j.text :: .markFailed j.id :: .heartbeat :: b, ?_,
            .failure _ _ _ hok⟩
          rw [hb]
          simp

lemma dueP_false_of_not_pending {now : Int} {j : Job} (h : j.status ≠ Status.pending) :
    dueP now j = false := by
  unfold dueP
  cases hj : j.status with
  | pending => exact absurd hj h
  | in_progress => rfl
  | posted => rfl
  | failed => rfl

lemma runJobs_split_due {now : Int} {j : Job} (post : Nat → PostOutcome)
    (st : RunState) (pre suf : List Job) (h : dueP now j = true) :
    (runJobs post now st (pre ++ j :: suf)).1 =
      (runJobs post now st pre).1 ++
        (stepJob post now (runJobs post now st pre).2 j).1 ::
        (runJobs post now (stepJob post now (runJobs post now st pre).2 j).2 suf).1 := by
  rw [runJobs_append post now pre (j :: suf) st, runJobs_cons_due post _ suf h]

lemma runJobs_split_not_due {now : Int} {j : Job} (post : Nat → PostOutcome)
    (st : RunState) (pre suf : List Job) (h : dueP now j = false) :
    ∃ p2 s2, (runJobs post now st (pre ++ j :: suf)).1 = p2 ++ j :: s2 ∧
      p2.length = pre.length := by
  rw [runJobs_append post now pre (j :: suf) st]
  rw [runJobs_cons_not_due post _ suf h]
  exact ⟨(runJobs post now st pre).1, _, rfl, runJobs_length post now pre st⟩

lemma run_once_preserve_not_pending {j : Job} (hstat : j.status ≠ Status.pending)
    (post : Nat → PostOutcome) (pid : Nat) (now : Int) (w : World)
    (pre suf : List Job) (hsplit : w.jobs = pre ++ j :: suf) :
    ∃ p2 s2, (run_once post pid now w).2.1.jobs = p2 ++ j :: s2 ∧
      p2.length = pre.length := by
  cases hl : w.lock with
  | some info =>
    unfold run_once
    rw [hl]
    exact ⟨pre, suf, hsplit, rfl⟩
  | none =>
    unfold run_once
    rw [hl]
    simp only
    rw [hsplit]
    exact runJobs_split_not_due post _ pre suf (dueP_false_of_not_pending hstat)

lemma runMany_preserve_not_pending {j : Job} (hstat : j.status ≠ Status.pending) :
    ∀ (params : List ((Nat → PostOutcome) × Nat × Int)) (w : World)
      (pre suf : List Job), w.jobs = pre ++ j :: suf →
      ∃ p2 s2, (runMany params w).jobs = p2 ++ j :: s2 ∧ p2.length = pre.length := by
  intro params
  induction params with
  | nil => intro w pre suf hsplit; exact ⟨pre, suf, hsplit, rfl⟩
  | cons p rest ih =>
    intro w pre suf hsplit
    rcases run_once_preserve_not_pending hstat p.1 p.2.1 p.2.2 w pre suf hsplit with
      ⟨p2, s2, h2, hlen⟩
    rcases ih _ p2 s2 h2 with ⟨p3, s3, h3, hlen3⟩
    exact ⟨p3, s3, h3, by rw [hlen3, hlen]⟩

/-- The initial loop state of an unlocked run: no calls yet, the journal
file as on disk, the initial heartbeat already traced. -/
def initState (w : World) : RunState :=
  { calls := 0, journal := w.journal, trace := [Ev.heartbeat], posted := [], failed := [] }

lemma run_once_shape (post : Nat → PostOutcome) (pid : Nat) (now : Int) (w : World)
    (hl : w.lock = none) :
    ∃ sm : JEntry, (∃ a b c d e f g h, sm = JEntry.run a b c d e f g h) ∧
      (run_once post pid now w).2.1.jobs = (runJobs post now (initState w) w.jobs).1 ∧
      (run_once post pid now w).2.1.journal =
        (runJobs post now (initState w) w.jobs).2.journal ++ [sm] ∧
      (run_once post pid now w).2.2 =
        (runJobs post now (initState w) w.jobs).2.trace ++
          [Ev.save (runJobs post now (initState w) w.jobs).1, Ev.journalAppend sm,
            Ev.heartbeat] ∧
      (run_once post pid now w).2.1.lock = none ∧
      (run_once post pid now w).1.posted = (runJobs post now (initState w) w.jobs).2.posted ∧
      (run_once post pid now w).1.failed = (runJobs post now (initState w) w.jobs).2.failed ∧
      (run_once post pid now w).1.checked = (w.jobs.filter (dueP now)).length := by
  unfold run_once
  rw [hl]
  exact ⟨_, ⟨_, _, _, _, _, _, _, _, rfl⟩, rfl, rfl, rfl, rfl, rfl, rfl, rfl⟩

/-- C1: a due pending job whose idempotency key already has a journal entry
carrying a tweet id is marked posted by `run_once` with exactly that tweet
id, without calling the posting collaborator for it and without appending
any new delivery journal entry for it; and re-running the engine any number
of times afterwards leaves the job posted with that same tweet id. -/
theorem c1_idempotent_replay
    (post : Nat → PostOutcome) (pid : Nat) (now : Int) (w : World)
    (pre suf : List Job) (j : Job) (r : JEntry) (tid : String)
    (hlock : w.lock = none)
    (hsplit : w.jobs = pre ++ j :: suf)
    (hnodup : (w.jobs.map Job.id).Nodup)
    (hdue : dueP now j = true)
    (hkey : j.idempotency_key ≠ "")
    (hlook : journal_lookup_idempotency j.idempotency_key w.journal = some r)
    (htid : r.truthyTweetId = some tid) :
    (∃ p2 s2, (run_once post pid now w).2.1.jobs =
        p2 ++ ({ j with
                  status := .posted, posted_tweet_id := some tid,
                  updated_at := now } :: s2) ∧
        p2.length = pre.length) ∧
    (∀ txt, Ev.postCall j.id txt ∉ (run_once post pid now w).2.2) ∧
    (∀ e ∈ (run_once post pid now w).2.1.journal,
        e.deliveryId = some j.id → e ∈ w.journal) ∧
    (∀ params, ∃ p3 s3, (runMany params (run_once post pid now w).2.1).jobs =
        p3 ++ ({ j with
                  status := .posted, posted_tweet_id := some tid,
                  updated_at := now } :: s3) ∧
        p3.length = pre.length) := by
  rcases run_once_shape post pid now w hlock with
    ⟨sm, ⟨a1, a2, a3, a4, a5, a6, a7, a8, hsm⟩, hjobs, hjournal, htrace, -, -, -, -⟩
  have hinit : (initState w).journal = w.journal := rfl
  have hsok : shortcutOK w.journal j := ⟨hkey, r, hlook, by rw [htid]; rfl⟩
  have hjmem : j ∈ w.jobs := by rw [hsplit]; exact List.mem_append_right _ (List.mem_cons_self _ _)
  -- the processed job at its position
  have hmain : ∃ p2 s2, (run_once post pid now w).2.1.jobs =
      p2 ++ ({ j with
                status := .posted, posted_tweet_id := some tid,
                updated_at := now } :: s2) ∧
      p2.length = pre.length := by
    rw [hjobs, hsplit, runJobs_split_due post (initState w) pre suf hdue]
    rcases runJobs_journal_extends post now pre (initState w) with ⟨t, ht⟩
    have hl2 : journal_lookup_idempotency j.idempotency_key
        (runJobs post now (initState w) pre).2.journal = some r := by
      rw [ht, hinit]
      exact journal_lookup_append t hlook
    rw [stepJob_of_shortcut (shortcutOf_of_lookup hkey hl2 htid)]
    exact ⟨_, _, rfl, runJobs_length post now pre (initState w)⟩
  refine ⟨hmain, ?_, ?_, ?_⟩
  · -- no collaborator call for this job
    intro txt hmem
    rw [htrace] at hmem
    rcases List.mem_append.mp hmem with h1 | h2
    · rcases runJobs_postCall_mem post now w.journal w.jobs (initState w) ⟨[], by simp [hinit]⟩
        j.id txt h1 with h3 | ⟨jb, hjb, hid, hnsc⟩
      · simp [initState] at h3
      · have : jb = j := List.inj_on_of_nodup_map hnodup hjb hjmem hid.symm
        rw [this] at hnsc
        exact hnsc hsok
    · rw [hsm] at h2
      simp at h2
  · -- no new delivery journal entry for this job
    intro e hmem hdel
    rw [hjournal] at hmem
    rcases List.mem_append.mp hmem with h1 | h2
    · rcases runJobs_new_delivery post now w.journal w.jobs (initState w) ⟨[], by simp [hinit]⟩
        e h1 with h3 | ⟨jb, hjb, hid, hnsc⟩
      · exact h3
      · have hideq : j.id = jb.id := by
          rw [hdel] at hid
          exact Option.some.inj hid.symm |>.symm
        have : jb = j := List.inj_on_of_nodup_map hnodup hjb hjmem hideq.symm
        rw [this] at hnsc
        exact absurd hsok hnsc
    · rcases List.mem_singleton.mp h2 with rfl
      rw [hsm] at hdel
      exact Option.noConfusion hdel
  · -- any number of further runs leaves the job untouched
    intro params
    rcases hmain with ⟨p2, s2, h2, hlen⟩
    rcases runMany_preserve_not_pending (j := { j with
        status := .posted,
        posted_tweet_id := some tid, updated_at := now }) (by simp) params
        (run_once post pid now w).2.1 p2 s2 h2 with ⟨p3, s3, h3, hlen3⟩
    exact ⟨p3, s3, h3, by rw [hlen3, hlen]⟩

/-- Decidable equality for `Except` results, used to evaluate the embedding
at concrete inputs. -/
instance {ε α : Type} [DecidableEq ε] [DecidableEq α] : DecidableEq (Except ε α) := by
  intro a b
  cases a <;> cases b <;> first
    | (apply isFalse; intro hc; exact Except.noConfusion hc)
    | (rename_i x y
       exact if h : x = y then isTrue (by rw [h])
         else isFalse (by intro hc; cases hc; exact h rfl))

/-! Concrete fixtures used by witnesses and counterexamples. -/

/-- A pending job due at instant 100. -/
def exJob : Job :=
  { id := "a1b2c3d4e5f6", text := "hello", time_utc := 100, tz := "HKT",
    status := .pending, attempt_count := 0, last_error := none,
    posted_tweet_id := none, idempotency_key := "k1", created_at := 0, updated_at := 0 }

/-- A second pending job due at instant 100, distinct id and key. -/
def exJob2 : Job :=
  { exJob with id := "b2c3d4e5f6a1", text := "world", idempotency_key := "k2" }

/-- A job that failed a previous delivery attempt. -/
def exFailedJob : Job :=
  { exJob with
    id := "ffffffffffff", status := .failed, attempt_count := 1,
    last_error := some "API error 500: boom" }

/-- A collaborator that always succeeds with a fixed id. -/
def exOracle : Nat → PostOutcome := fun _ => .ok "1234567890"

/-- A collaborator whose first call fails and later calls succeed. -/
def exOracleFailFirst : Nat → PostOutcome :=
  fun n => if n = 0 then .apiErr "API error 500: boom" else .ok "1234567890"

/-- A journal delivery entry recording a successful prior delivery of
`exJob`'s idempotency key. -/
def exEntry : JEntry := .delivery "a1b2c3d4e5f6" "k1" "T9" 50 "scheduled" "hello"

/-- A world whose journal already records a delivery for `exJob`'s key. -/
def exWorldJournaled : World := { jobs := [exJob], journal := [exEntry], lock := none }

/-- Witness: C1 applied to a concrete world with one due job whose key is
already journaled. -/
theorem c1_idempotent_replay_witness :
    (∃ p2 s2, (run_once exOracle 7 1000 exWorldJournaled).2.1.jobs =
        p2 ++ ({ exJob with
                  status := .posted, posted_tweet_id := some "T9",
                  updated_at := 1000 } :: s2) ∧
        p2.length = ([] : List Job).length) ∧
    (∀ txt, Ev.postCall exJob.id txt ∉ (run_once exOracle 7 1000 exWorldJournaled).2.2) ∧
    (∀ e ∈ (run_once exOracle 7 1000 exWorldJournaled).2.1.journal,
        e.deliveryId = some exJob.id → e ∈ exWorldJournaled.journal) ∧
    (∀ params, ∃ p3 s3,
        (runMany params (run_once exOracle 7 1000 exWorldJournaled).2.1).jobs =
        p3 ++ ({ exJob with
                  status := .posted, posted_tweet_id := some "T9",
                  updated_at := 1000 } :: s3) ∧
        p3.length = ([] : List Job).length) :=
  c1_idempotent_replay exOracle 7 1000 exWorldJournaled [] [] exJob exEntry "T9"
    rfl rfl (by decide) (by decide) (by decide) rfl rfl

/-- C5: when the lock file already holds a record, `run_once` returns
`runner_active` with that record and performs no journal or store write:
the entire durable state is returned unchanged and the effect trace is
empty. -/
theorem c5_lock_contention (post : Nat → PostOutcome) (pid : Nat) (now : Int)
    (w : World) (info : LockInfo) (h : w.lock = some info) :
    run_once post pid now w =
      ({ ok := false, reason := some "runner_active", info := some info,
         posted := [], failed := [], checked := 0 }, w, []) := by
  unfold run_once
  rw [h]

/-- Witness: C5 applied to a concrete contended world. -/
theorem c5_lock_contention_witness :
    run_once exOracle 7 1000 { jobs := [exJob], journal := [], lock := some ⟨42, 5, 6⟩ } =
      ({ ok := false, reason := some "runner_active", info := some ⟨42, 5, 6⟩,
         posted := [], failed := [], checked := 0 },
       { jobs := [exJob], journal := [], lock := some ⟨42, 5, 6⟩ }, []) :=
  c5_lock_contention exOracle 7 1000 _ ⟨42, 5, 6⟩ rfl

/-- C2 counterexample: a job with status `failed` and `time_utc` in the past
is *not* selected by `run_once` — the run checks zero jobs, leaves the job
record untouched (no `in_progress` transition, no attempt increment) and
makes no collaborator call, even though the claim says it is retried. -/
theorem c2_counterexample :
    exFailedJob.status = Status.failed ∧ exFailedJob.time_utc ≤ 1000 ∧
    run_once exOracle 7 1000 { jobs := [exFailedJob], journal := [], lock := none } =
      ({ ok := true, reason := none, info := none, posted := [], failed := [],
         checked := 0 },
       { jobs := [exFailedJob],
         journal := [JEntry.run 1000 1000 0 0 0 [] [] true], lock := none },
       [Ev.heartbeat, Ev.save [exFailedJob],
        Ev.journalAppend (JEntry.run 1000 1000 0 0 0 [] [] true), Ev.heartbeat]) := by
  refine ⟨rfl, by decide, rfl⟩

/-- C2 amended: `failed` is terminal for the delivery engine — the due
filter selects only `pending` jobs, so a job whose status is `failed` is
never selected again by `run_once` and its record (position, fields,
attempt count) is carried through unchanged. -/
theorem c2_failed_is_terminal (post : Nat → PostOutcome) (pid : Nat) (now : Int)
    (w : World) (pre suf : List Job) (j : Job)
    (hsplit : w.jobs = pre ++ j :: suf) (hstat : j.status = Status.failed) :
    dueP now j = false ∧
    ∃ p2 s2, (run_once post pid now w).2.1.jobs = p2 ++ j :: s2 ∧
      p2.length = pre.length := by
  have hns : j.status ≠ Status.pending := by
    rw [hstat]
    exact fun hh => Status.noConfusion hh
  exact ⟨dueP_false_of_not_pending hns,
    run_once_preserve_not_pending hns post pid now w pre suf hsplit⟩

/-- Witness: C2 amended applied to a concrete world holding one failed
job. -/
theorem c2_failed_is_terminal_witness :
    dueP 1000 exFailedJob = false ∧
    ∃ p2 s2, (run_once exOracle 7 1000
        { jobs := [exFailedJob], journal := [], lock := none }).2.1.jobs =
      p2 ++ exFailedJob :: s2 ∧ p2.length = ([] : List Job).length :=
  c2_failed_is_terminal exOracle 7 1000
    { jobs := [exFailedJob], journal := [], lock := none } [] [] exFailedJob rfl rfl

/-- Detect the snapshot-save effect. -/
def isSave : Ev → Bool
  | .save _ => true
  | _ => false

/-- C4: in an unlocked `run_once` the effect trace decomposes into the
initial heartbeat, a sequence of well-formed per-job blocks (each successful
delivery appends its journal entry strictly before marking the job posted,
per `BlocksOK`), and then exactly one snapshot save followed by the
run-summary journal append — the store snapshot is saved only once, after
all due jobs are processed, and every journal delivery append precedes the
store write. -/
theorem c4_journal_first_ordering (post : Nat → PostOutcome) (pid : Nat) (now : Int)
    (w : World) (hlock : w.lock = none) :
    ∃ body sm,
      (run_once post pid now w).2.2 =
        Ev.heartbeat :: body ++
          [Ev.save (run_once post pid now w).2.1.jobs, Ev.journalAppend sm,
            Ev.heartbeat] ∧
      BlocksOK body ∧
      (∀ js, Ev.save js ∉ body) ∧
      (∃ a b c d e f g h, sm = JEntry.run a b c d e f g h) ∧
      ((run_once post pid now w).2.2.countP isSave) = 1 := by
  rcases run_once_shape post pid now w hlock with
    ⟨sm, hrun, hjobs, hjournal, htrace, -, -, -, -⟩
  rcases runJobs_trace_decomp post now w.jobs (initState w) with ⟨body, hbody, hok⟩
  refine ⟨body, sm, ?_, hok, BlocksOK.no_save hok, hrun, ?_⟩
  · rw [htrace, hbody, hjobs]
    simp [initState]
  · rw [htrace, hbody]
    have hnos : ∀ ev ∈ body, ¬ (isSave ev = true) := by
      intro ev hev hsv
      cases ev with
      | save js => exact BlocksOK.no_save hok js hev
      | postCall i t => exact Bool.noConfusion hsv
      | journalAppend e => exact Bool.noConfusion hsv
      | markPosted i => exact Bool.noConfusion hsv
      | markFailed i => exact Bool.noConfusion hsv
      | heartbeat => exact Bool.noConfusion hsv
    simp [initState, List.countP_append, List.countP_eq_zero.mpr hnos, isSave,
      List.countP_cons]

/-- Witness: C4 applied to a concrete unlocked world. -/
theorem c4_journal_first_ordering_witness :
    ∃ body sm,
      (run_once exOracle 7 1000
          { jobs := [exJob], journal := [], lock := none }).2.2 =
        Ev.heartbeat :: body ++
          [Ev.save (run_once exOracle 7 1000
              { jobs := [exJob], journal := [], lock := none }).2.1.jobs,
            Ev.journalAppend sm, Ev.heartbeat] ∧
      BlocksOK body ∧
      (∀ js, Ev.save js ∉ body) ∧
      (∃ a b c d e f g h, sm = JEntry.run a b c d e f g h) ∧
      ((run_once exOracle 7 1000
          { jobs := [exJob], journal := [], lock := none }).2.2.countP isSave) = 1 :=
  c4_journal_first_ordering exOracle 7 1000
    { jobs := [exJob], journal := [], lock := none } rfl

/-- C6: delivery failures are isolated per job — every due job of the batch
reaches a terminal outcome (`posted` or `failed`) in the same invocation
regardless of other jobs' failures, and a job whose collaborator call
raises `ApiError` is recorded failed with `last_error` set (all other
fields besides the attempt counter, status, error and timestamp are
untouched). -/
theorem c6_per_job_failure_isolation (post : Nat → PostOutcome) (pid : Nat)
    (now : Int) (w : World) (hlock : w.lock = none) :
    (∀ pre j suf, w.jobs = pre ++ j :: suf → dueP now j = true →
      ∃ p2 s2 j2, (run_once post pid now w).2.1.jobs = p2 ++ j2 :: s2 ∧
        p2.length = pre.length ∧
        (j2.status = Status.posted ∨ j2.status = Status.failed)) ∧
    (∀ st j msg, dueP now j = true → shortcutOf st j = none →
      post st.calls = PostOutcome.apiErr msg →
      (stepJob post now st j).1 = { j with
        status := .failed, attempt_count := j.attempt_count + 1,
        last_error := some msg, updated_at := now }) := by
  rcases run_once_shape post pid now w hlock with
    ⟨sm, hrun, hjobs, hjournal, htrace, -, -, -, -⟩
  constructor
  · intro pre j suf hsplit hdue
    rw [hjobs, hsplit, runJobs_split_due post (initState w) pre suf hdue]
    refine ⟨(runJobs post now (initState w) pre).1, _,
      (stepJob post now (runJobs post now (initState w) pre).2 j).1, rfl,
      runJobs_length post now pre (initState w), ?_⟩
    exact stepJob_status_terminal post now _ j
  · intro st j msg hdue hsc hp
    rw [stepJob_of_post_err hsc hp]

/-- Witness: C6 applied to a concrete world with two due jobs where the
first delivery fails and the second succeeds. -/
theorem c6_per_job_failure_isolation_witness :
    (∃ p2 s2 j2, (run_once exOracleFailFirst 7 1000
        { jobs := [exJob, exJob2], journal := [], lock := none }).2.1.jobs =
      p2 ++ j2 :: s2 ∧ p2.length = ([] : List Job).length ∧
      (j2.status = Status.posted ∨ j2.status = Status.failed)) ∧
    (stepJob exOracleFailFirst 1000 (initState
        { jobs := [exJob, exJob2], journal := [], lock := none }) exJob).1 =
      { exJob with
        status := .failed, attempt_count := exJob.attempt_count + 1,
        last_error := some "API error 500: boom", updated_at := 1000 } := by
  have h := c6_per_job_failure_isolation exOracleFailFirst 7 1000
    { jobs := [exJob, exJob2], journal := [], lock := none } rfl
  refine ⟨h.1 [] exJob [exJob2] rfl (by decide), ?_⟩
  exact h.2 (initState { jobs := [exJob, exJob2], journal := [], lock := none })
    exJob "API error 500: boom" (by decide) (by decide) rfl

lemma update_job_go_ok (now rnd : Int) (job_id : String) (text : Option String)
    (atSpec : Option TSpec) (tzn : Option String) :
    ∀ (js js' : List Job) (jb : Job),
      update_job_go now rnd job_id text atSpec tzn js = .ok (js', jb) →
      jb ∈ js' ∧
        jb.idempotency_key = compute_idempotency_key jb.text (isoOf jb.time_utc) ∧
        jb.updated_at = now := by
  intro js
  induction js with
  | nil =>
    intro js' jb h
    exact Except.noConfusion h
  | cons j rest ih =>
    intro js' jb h
    rw [update_job_go.eq_def] at h
    dsimp only at h
    by_cases hid : j.id = job_id
    · rw [if_pos hid] at h
      cases atSpec with
      | none =>
        dsimp only at h
        simp only [Except.ok.injEq, Prod.mk.injEq] at h
        rcases h with ⟨hjs, hjb⟩
        subst hjb
        exact ⟨by rw [← hjs]; exact List.mem_cons_self _ _, rfl, rfl⟩
      | some a =>
        dsimp only at h
        cases hp : parse_time_to_utc now rnd a (some (orHKT tzn)) with
        | error e =>
          rw [hp] at h
          exact Except.noConfusion h
        | ok tt =>
          rw [hp] at h
          simp only [Except.ok.injEq, Prod.mk.injEq] at h
          rcases h with ⟨hjs, hjb⟩
          subst hjb
          exact ⟨by rw [← hjs]; exact List.mem_cons_self _ _, rfl, rfl⟩
    · rw [if_neg hid] at h
      cases hr : update_job_go now rnd job_id text atSpec tzn rest with
      | error e => rw [hr] at h; exact Except.noConfusion h
      | ok rr =>
        rw [hr] at h
        simp only [Except.ok.injEq, Prod.mk.injEq] at h
        rcases h with ⟨hjs, hjb⟩
        rcases ih rr.1 rr.2 (by rw [hr]) with ⟨hmem, hkey, hupd⟩
        subst hjb
        exact ⟨by rw [← hjs]; exact List.mem_cons_of_mem _ hmem, hkey, hupd⟩

/-- C8: after every successful `add_job` and every successful `update_job`,
the stored job's `idempotency_key` equals `compute_idempotency_key` applied
to the job's current `(text, time_utc)` — the key is recomputed on the
mutated record on every mutation, whatever fields were supplied. -/
theorem c8_idempotency_key_invariant :
    (∀ (now rnd : Int) (newId : String) (sched : Schedule) (text : String)
        (atSpec : TSpec) (tzn : Option String) (s : Schedule) (jb : Job),
      add_job now rnd newId sched text atSpec tzn = .ok (s, jb) →
      jb.idempotency_key = compute_idempotency_key jb.text (isoOf jb.time_utc) ∧
        s.jobs = sched.jobs ++ [jb]) ∧
    (∀ (now rnd : Int) (sched : Schedule) (job_id : String) (text : Option String)
        (atSpec : Option TSpec) (tzn : Option String) (s : Schedule) (jb : Job),
      update_job now rnd sched job_id text atSpec tzn = .ok (s, jb) →
      jb.idempotency_key = compute_idempotency_key jb.text (isoOf jb.time_utc) ∧
        jb ∈ s.jobs) := by
  constructor
  · intro now rnd newId sched text atSpec tzn s jb h
    unfold add_job at h
    cases hp : parse_time_to_utc now rnd atSpec tzn with
    | error e => rw [hp] at h; exact Except.noConfusion h
    | ok tt =>
      obtain ⟨t, z⟩ := tt
      rw [hp] at h
      dsimp only at h
      by_cases hle : t ≤ now + 300
      · rw [if_pos hle] at h; exact Except.noConfusion h
      · rw [if_neg hle] at h
        simp only [Except.ok.injEq, Prod.mk.injEq] at h
        rcases h with ⟨hs, hjb⟩
        subst hjb
        exact ⟨rfl, by rw [← hs]⟩
  · intro now rnd sched job_id text atSpec tzn s jb h
    unfold update_job at h
    cases hr : update_job_go now rnd job_id text atSpec tzn sched.jobs with
    | error e => rw [hr] at h; exact Except.noConfusion h
    | ok rr =>
      rw [hr] at h
      simp only [Except.ok.injEq, Prod.mk.injEq] at h
      rcases h with ⟨hs, hjb⟩
      rcases update_job_go_ok now rnd job_id text atSpec tzn sched.jobs rr.1 rr.2
        (by rw [hr]) with ⟨hmem, hkey, -⟩
      subst hjb
      exact ⟨hkey, by rw [← hs]; exact hmem⟩

/-- The job created by the concrete `add_job` call of the C8 witness. -/
def exAddedJob : Job :=
  { id := "id1", text := "hi", time_utc := 1000000, tz := "UTC", status := .pending,
    attempt_count := 0, last_error := none, posted_tweet_id := none,
    idempotency_key := compute_idempotency_key "hi" (isoOf 1000000),
    created_at := 0, updated_at := 0 }

/-- The job produced by the concrete `update_job` call of the C8 witness. -/
def exUpdatedJob : Job :=
  { exJob with
    text := "bye",
    idempotency_key := compute_idempotency_key "bye" (isoOf 100),
    updated_at := 0 }

/-- Witness: C8 applied to a concrete create and a concrete update. -/
theorem c8_idempotency_key_invariant_witness :
    (exAddedJob.idempotency_key =
        compute_idempotency_key exAddedJob.text (isoOf exAddedJob.time_utc) ∧
      (Schedule.mk [exAddedJob]).jobs = ([] : List Job) ++ [exAddedJob]) ∧
    (exUpdatedJob.idempotency_key =
        compute_idempotency_key exUpdatedJob.text (isoOf exUpdatedJob.time_utc) ∧
      exUpdatedJob ∈ (Schedule.mk [exUpdatedJob]).jobs) :=
  ⟨c8_idempotency_key_invariant.1 0 0 "id1" ⟨[]⟩ "hi"
      ⟨none, RSpec.absolute 1000000 none⟩ (some "UTC") ⟨[exAddedJob]⟩ exAddedJob (by decide),
   c8_idempotency_key_invariant.2 0 0 ⟨[exJob]⟩ exJob.id (some "bye") none none
      ⟨[exUpdatedJob]⟩ exUpdatedJob (by decide)⟩

/-- C9 counterexample: a schedule file containing the *valid* JSON scalar
`5` makes `load_schedule` raise `TypeError` (the Python expression
`"jobs" not in 5` is itself an error), so loading is not total and a
corrupted store is not always replaced by the empty job set. -/
theorem c9_counterexample :
    load_schedule (.valid (.num 5)) = .error PyErr.typeError := rfl

/-- C9 amended: `load_schedule` returns the empty snapshot `{"jobs": []}`
when the schedule file is absent, when its contents are not parseable JSON,
and when it parses to a JSON *object* without a list-valued `"jobs"` key;
but for a non-container JSON document (number, boolean, null) the
containment check raises `TypeError`, so loading can fail. -/
theorem c9_load_schedule_total_on_objects :
    load_schedule .absent = .ok emptySnapshot ∧
    load_schedule .invalid = .ok emptySnapshot ∧
    (∀ fields, fields.all (fun p => !(p.1 == "jobs")) →
      load_schedule (.valid (.obj fields)) = .ok emptySnapshot) ∧
    (∀ fields p, fields.find? (fun q => q.1 == "jobs") = some p → p.2.isList = false →
      load_schedule (.valid (.obj fields)) = .ok emptySnapshot) := by
  refine ⟨rfl, rfl, ?_, ?_⟩
  · intro fields hall
    unfold load_schedule jsonContains
    simp only [read_json]
    have hany : fields.any (fun p => p.1 == "jobs") = false := by
      rw [List.any_eq_false]
      intro p hp
      have := List.all_eq_true.mp hall p hp
      simpa using this
    rw [hany]
    rfl
  · intro fields p hfind hlist
    unfold load_schedule jsonContains jsonSubscript
    simp only [read_json]
    have hpv := List.find?_some hfind
    have hany : fields.any (fun q => q.1 == "jobs") = true := by
      rw [List.any_eq_true]
      exact ⟨p, List.mem_of_find?_eq_some hfind, hpv⟩
    rw [hany, hfind]
    simp [hlist]

/-- Witness: C9 amended applied to concrete malformed objects. -/
theorem c9_load_schedule_total_on_objects_witness :
    load_schedule (.valid (.obj [("x", .null)])) = .ok emptySnapshot ∧
    load_schedule (.valid (.obj [("jobs", .str "oops")])) = .ok emptySnapshot := by
  constructor
  · exact c9_load_schedule_total_on_objects.2.2.1 [("x", .null)] rfl
  · exact c9_load_schedule_total_on_objects.2.2.2 [("jobs", .str "oops")]
      ("jobs", .str "oops") rfl rfl

/-- The job produced by updating `exJob` to a past absolute instant. -/
def exPastJob : Job :=
  { exJob with
    time_utc := -5000,
    idempotency_key := compute_idempotency_key "hello" (isoOf (-5000)),
    updated_at := 0 }

/-- C3 counterexample: with the current time at 0, updating an existing job
to the absolute instant -5000 — which resolves to an instant in the *past*,
far below `now + 5min` — succeeds instead of failing with `TooSoon`:
`update_job` performs no lead-time check of its own, and the absolute
branch of time resolution performs none either. -/
theorem c3_counterexample :
    parse_time_to_utc 0 0 ⟨none, RSpec.absolute (-5000) (some 0)⟩ (some (orHKT none)) =
      .ok (-5000, "HKT") ∧
    (-5000 : Int) < 0 + 300 ∧
    update_job 0 0 ⟨[exJob]⟩ exJob.id none
        (some ⟨none, RSpec.absolute (-5000) (some 0)⟩) none =
      .ok (⟨[exPastJob]⟩, exPastJob) ∧
    exPastJob.time_utc = -5000 := by
  refine ⟨by decide, by decide, by decide, by decide⟩

/-- C3 amended: `add_job` fails with `TooSoon` for every resolved instant
below (in fact at or below) `now + 5min` and succeeds at exactly
`now + 5min + 1s`; but `update_job` applies no lead-time check of its own —
when the supplied time spec resolves (as every absolute spec does, with no
5-minute rule on that path), the update succeeds whatever the resolved
instant, including instants in the past. -/
theorem c3_lead_time (now rnd : Int) (newId : String) (sched : Schedule)
    (text : String) (atSpec : TSpec) (tzn : Option String) :
    (∀ t z, parse_time_to_utc now rnd atSpec tzn = .ok (t, z) → t < now + 300 →
      add_job now rnd newId sched text atSpec tzn = .error Err.tooSoon) ∧
    (∀ t z, parse_time_to_utc now rnd atSpec tzn = .ok (t, z) → t = now + 301 →
      ∃ jb, add_job now rnd newId sched text atSpec tzn =
          .ok (⟨sched.jobs ++ [jb]⟩, jb) ∧ jb.time_utc = now + 301) ∧
    (∀ (j : Job) (rest : List Job) (t : Int) (z : String),
      parse_time_to_utc now rnd atSpec (some (orHKT tzn)) = .ok (t, z) →
      ∃ jb, update_job now rnd ⟨j :: rest⟩ j.id none (some atSpec) tzn =
          .ok (⟨jb :: rest⟩, jb) ∧ jb.time_utc = t) := by
  refine ⟨?_, ?_, ?_⟩
  · intro t z hp hlt
    unfold add_job
    rw [hp]
    dsimp only
    rw [if_pos (by omega)]
  · intro t z hp ht
    unfold add_job
    rw [hp]
    dsimp only
    rw [if_neg (by omega)]
    exact ⟨_, rfl, ht⟩
  · intro j rest t z hp
    unfold update_job
    rw [update_job_go.eq_def]
    dsimp only
    rw [if_pos rfl]
    rw [hp]
    dsimp only
    exact ⟨_, rfl, rfl⟩

/-- Witness: C3 amended applied at concrete inputs — a create 100 s out
fails, a create at exactly now+301 s succeeds, and an update to a past
instant succeeds. -/
theorem c3_lead_time_witness :
    add_job 0 0 "id1" ⟨[]⟩ "x" ⟨none, RSpec.absolute 100 (some 0)⟩ (some "UTC") =
      .error Err.tooSoon ∧
    (∃ jb, add_job 0 0 "id1" ⟨[]⟩ "x" ⟨none, RSpec.absolute 301 (some 0)⟩ (some "UTC") =
        .ok (⟨([] : List Job) ++ [jb]⟩, jb) ∧ jb.time_utc = 0 + 301) ∧
    (∃ jb, update_job 0 0 ⟨[exJob]⟩ exJob.id none
        (some ⟨none, RSpec.absolute (-5000) (some 0)⟩) none =
        .ok (⟨jb :: []⟩, jb) ∧ jb.time_utc = -5000) :=
  ⟨(c3_lead_time 0 0 "id1" ⟨[]⟩ "x" ⟨none, RSpec.absolute 100 (some 0)⟩
      (some "UTC")).1 100 "UTC" (by decide) (by decide),
   (c3_lead_time 0 0 "id1" ⟨[]⟩ "x" ⟨none, RSpec.absolute 301 (some 0)⟩
      (some "UTC")).2.1 301 "UTC" (by decide) (by decide),
   (c3_lead_time 0 0 "id1" ⟨[]⟩ "x" ⟨none, RSpec.absolute (-5000) (some 0)⟩
      none).2.2 exJob [] (-5000) "HKT" (by decide)⟩

/-- C10 counterexample: resolving the prime-time keyword `"EU morning"`
with no caller timezone reports the window's own timezone name
`"Europe/Berlin"`, not `"HKT"` — so not *every* resolution path reports
times with tz name `"HKT"` when the caller supplies none. -/
theorem c10_counterexample :
    parse_time_to_utc 0 0 ⟨none, RSpec.primeKeyword "EU" "morning"⟩ none =
      .ok (25200, "Europe/Berlin") ∧
    ("Europe/Berlin" : String) ≠ "HKT" := by
  refine ⟨by decide, by decide⟩

lemma update_job_go_default_tz (now rnd : Int) (job_id : String)
    (text : Option String) (atSpec : Option TSpec) :
    ∀ js, update_job_go now rnd job_id text atSpec none js =
      update_job_go now rnd job_id text atSpec (some "HKT") js := by
  intro js
  induction js with
  | nil => rfl
  | cons j rest ih =>
    rw [update_job_go.eq_def, update_job_go.eq_def]
    dsimp only
    by_cases hid : j.id = job_id
    · rw [if_pos hid, if_pos hid]
      rfl
    · rw [if_neg hid, if_neg hid, ih]

/-- C10 amended: with no caller timezone the resolver behaves exactly as
with `"HKT"`: the shorthand clock path interprets and reports times in
Asia/Hong_Kong as `"HKT"`, the absolute path converts using the
Asia/Hong_Kong offset and reports `"HKT"`, and `update_job` falls back to
`"HKT"` rather than the job's stored tz; the prime-keyword path, however,
reports the window's own timezone name. An unrecognized timezone name
silently falls back to UTC. -/
theorem c10_default_tz_fallback :
    (∀ (now rnd : Int) (ts : TSpec),
      resolve_time_spec now rnd ts none = resolve_time_spec now rnd ts (some "HKT")) ∧
    (∀ (now rnd : Int) (ts : TSpec),
      parse_time_to_utc now rnd ts none = parse_time_to_utc now rnd ts (some "HKT")) ∧
    (∀ (now rnd : Int) (hh mm : Nat) (res : Resolved × String × Bool),
      resolve_time_spec now rnd ⟨none, .clock hh mm⟩ none = .ok res →
      res.2.1 = "HKT" ∧ ∃ wall, res.1 = .aware wall hkOffset) ∧
    (∀ (now rnd wall : Int),
      parse_time_to_utc now rnd ⟨none, .absolute wall none⟩ none =
        .ok (wall - hkOffset, "HKT")) ∧
    (∀ (now rnd : Int) (sched : Schedule) (job_id : String) (text : Option String)
        (atSpec : Option TSpec),
      update_job now rnd sched job_id text atSpec none =
        update_job now rnd sched job_id text atSpec (some "HKT")) ∧
    (∀ n, gettz n = none → ¬(n = "" ∨ strUpper n = "HKT") →
      default_tz_from_name (some n) = 0) := by
  refine ⟨fun now rnd ts => rfl, fun now rnd ts => rfl, ?_, fun now rnd wall => rfl,
    ?_, ?_⟩
  · intro now rnd hh mm res hres
    unfold resolve_time_spec at hres
    dsimp only at hres
    rw [if_neg (show ¬((none : Option Nat).isSome = true) by simp)] at hres
    rw [if_neg (show ¬((none : Option Nat).getD 0 ≠ 0) by simp)] at hres
    repeat' split at hres
    all_goals
      first
        | exact Except.noConfusion hres
        | (simp only [Except.ok.injEq] at hres
           subst hres
           exact ⟨rfl, _, rfl⟩)
  · intro now rnd sched job_id text atSpec
    unfold update_job
    rw [update_job_go_default_tz]
  · intro n h1 h2
    rcases not_or.mp h2 with ⟨h2a, h2b⟩
    unfold default_tz_from_name
    dsimp only
    rw [if_neg (by simp [h2a, h2b])]
    rw [h1]

/-- Witness: C10 amended applied at concrete inputs. -/
theorem c10_default_tz_fallback_witness :
    ((Resolved.aware 52200 28800, "HKT", true) : Resolved × String × Bool).2.1 = "HKT" ∧
    (∃ wall, ((Resolved.aware 52200 28800, "HKT", true) :
        Resolved × String × Bool).1 = .aware wall hkOffset) ∧
    default_tz_from_name (some "Mars/Phobos") = 0 := by
  refine ⟨?_, ?_, ?_⟩
  · exact (c10_default_tz_fallback.2.2.1 0 0 14 30
      (Resolved.aware 52200 28800, "HKT", true) (by decide)).1
  · exact (c10_default_tz_fallback.2.2.1 0 0 14 30
      (Resolved.aware 52200 28800, "HKT", true) (by decide)).2
  · exact c10_default_tz_fallback.2.2.2.2.2 "Mars/Phobos" rfl (by decide)

lemma orHKT_ne_empty (tzn : Option String) : orHKT tzn ≠ "" := by
  cases tzn with
  | none => decide
  | some n =>
    by_cases h : n = ""
    · simp [orHKT, h]
    · simp [orHKT, h]

lemma chooseTarget_bounds (rnd R E : Int) (h : R < E) :
    R ≤ chooseTarget rnd R E ∧ chooseTarget rnd R E < E := by
  unfold chooseTarget
  dsimp only
  split
  · exact ⟨le_refl R, h⟩
  · rename_i hgt
    have h1 : 0 ≤ rnd.emod (E - R - 60 + 1) := Int.emod_nonneg rnd (by omega)
    have h2 : rnd.emod (E - R - 60 + 1) < E - R - 60 + 1 :=
      Int.emod_lt_of_pos rnd (by omega)
    omega

lemma window_bounds (s e rnd R E : Int)
    (hs : 0 ≤ s) (hse : s < e) (he : e ≤ 24)
    (hdiff : (E - 3600 * e) % 86400 = 0)
    (hRlow : E - 3600 * (e - s) ≤ R)
    (hRE : R < E) :
    3600 * s ≤ (chooseTarget rnd R E) % 86400 ∧
    (chooseTarget rnd R E) % 86400 < 3600 * e := by
  obtain ⟨h1, h2⟩ := chooseTarget_bounds rnd R E hRE
  omega

lemma window_bounds_future (now tzoff s e rnd R E : Int)
    (hs : 0 ≤ s) (hse : s < e) (he : e ≤ 24)
    (hdiff : (E - 3600 * e) % 86400 = 0)
    (hRlow : E - 3600 * (e - s) ≤ R)
    (hRE : R < E)
    (hfut : now + tzoff + 300 ≤ R) :
    3600 * s ≤ (chooseTarget rnd R E) % 86400 ∧
    (chooseTarget rnd R E) % 86400 < 3600 * e ∧
    now + 300 ≤ chooseTarget rnd R E - tzoff := by
  obtain ⟨h1, h2⟩ := chooseTarget_bounds rnd R E hRE
  omega

set_option maxHeartbeats 2000000 in
lemma primeCore_bounds (now rnd tzoff s e : Int) (aoff : Option Int)
    (hs : 0 ≤ s) (hse : s < e) (he : e ≤ 24) :
    ∃ wall, primeCore now rnd tzoff s e false 0 aoff = .ok wall ∧
      3600 * s ≤ wall % 86400 ∧ wall % 86400 < 3600 * e := by
  unfold primeCore
  simp only [dayStart, daySecs]
  cases aoff with
  | none =>
    dsimp only
    simp only [if_true, ne_eq, not_true_eq_false, false_and, if_false,
      Option.isSome_none, Bool.false_eq_true, gt_iff_lt, lt_self_iff_false, and_false]
    repeat' (first | dsimp only | split)
    all_goals
      exact ⟨_, rfl, window_bounds s e rnd _ _ hs hse he
        (by omega) (by omega) (by omega)⟩
  | some a =>
    dsimp only
    simp only [if_true, ne_eq, not_true_eq_false, false_and, if_false,
      Option.isSome_some, Bool.false_eq_true, gt_iff_lt, lt_self_iff_false, and_false,
      true_and]
    repeat' (first | dsimp only | split)
    all_goals
      exact ⟨_, rfl, window_bounds s e rnd _ _ hs hse he
        (by omega) (by omega) (by omega)⟩

set_option maxHeartbeats 2000000 in
lemma primeCore_bounds_hk (now rnd : Int) :
    ∃ wall, primeCore now rnd 3600 8 11 false 0 (some 28800) = .ok wall ∧
      3600 * 8 ≤ wall % 86400 ∧ wall % 86400 < 3600 * 11 ∧
      now + 300 ≤ wall - 3600 := by
  unfold primeCore
  simp only [dayStart, daySecs]
  simp only [if_true, ne_eq, not_true_eq_false, false_and, if_false,
    Option.isSome_some, Bool.false_eq_true, gt_iff_lt, lt_self_iff_false, and_false,
    true_and]
  repeat' (first | dsimp only | split)
  all_goals
    exact ⟨_, rfl, window_bounds_future now 3600 8 11 rnd _ _ (by omega) (by omega)
      (by omega) (by omega) (by omega) (by omega) (by omega)⟩

lemma resolve_EU_morning (now rnd : Int) (tzn : Option String) :
    resolve_time_spec now rnd ⟨none, .primeKeyword "EU" "morning"⟩ tzn =
      match primeCore now rnd 3600 8 11 false 0
          (some (default_tz_from_name (some (orHKT tzn)))) with
      | .error e => .error e
      | .ok target => .ok (.aware target 3600, "Europe/Berlin", true) := by
  have hne : orHKT tzn ≠ "" := orHKT_ne_empty tzn
  unfold resolve_time_spec
  dsimp only
  unfold resolve_prime_time_keyword
  rw [show strLower "morning" = "morning" from by decide]
  dsimp only
  rw [if_neg (show ¬("morning" : String) = "non" from by decide)]
  rw [show _match_region "EU" = some "EU" from by decide]
  dsimp only
  rw [show primeRegionTz "EU" = some "Europe/Berlin" from by decide,
    show primeHours "EU" "morning" = some (8, 11) from by decide]
  dsimp only
  rw [show (gettz "Europe/Berlin").getD 0 = (3600 : Int) from by decide]
  rw [if_neg hne]
  simp only [Option.getD_none, Option.map_some']
  cases hpc : primeCore now rnd 3600 8 11 false 0
      (some (default_tz_from_name (some (orHKT tzn)))) with
  | error e => rfl
  | ok target => rfl

/-- C7 counterexample: resolving `"EU morning"` with caller timezone
`America/Los_Angeles` at `now = 25500` (a moment late in the anchor's local
day) yields the instant 25200 — local 08:00 in Europe/Berlin but 300
seconds *before* `now`: the day-shift taken after the anchor re-fit sets
`earliest` back to the window start without re-applying the
`now + 5 minutes` clamp, so the resolved instant is not always in the
future. -/
theorem c7_counterexample :
    resolve_time_spec 25500 0 ⟨none, RSpec.primeKeyword "EU" "morning"⟩
        (some "America/Los_Angeles") =
      .ok (.aware 28800 3600, "Europe/Berlin", true) ∧
    (28800 : Int) - 3600 < 25500 := by
  refine ⟨by decide, by decide⟩

/-- C7 amended: resolving `"EU morning"` always yields an aware instant in
the window — `08:00 ≤ local(t) < 11:00` Europe/Berlin — whatever the caller
timezone and random draw; with the default Asia/Hong_Kong anchor (no caller
tz) the instant is moreover at least 5 minutes in the future; and the
result is not a constant: two random draws can yield two different
instants. (The future guarantee does not extend to every caller timezone,
as the counterexample shows.) -/
theorem c7_eu_morning_window (now rnd : Int) (tzn : Option String) :
    (∃ wall, resolve_time_spec now rnd ⟨none, .primeKeyword "EU" "morning"⟩ tzn =
        .ok (.aware wall 3600, "Europe/Berlin", true) ∧
      3600 * 8 ≤ wall % 86400 ∧ wall % 86400 < 3600 * 11) ∧
    (∃ wall, resolve_time_spec now rnd ⟨none, .primeKeyword "EU" "morning"⟩ none =
        .ok (.aware wall 3600, "Europe/Berlin", true) ∧
      3600 * 8 ≤ wall % 86400 ∧ wall % 86400 < 3600 * 11 ∧
      now + 300 ≤ wall - 3600) ∧
    (resolve_time_spec 0 0 ⟨none, .primeKeyword "EU" "morning"⟩ none ≠
      resolve_time_spec 0 5 ⟨none, .primeKeyword "EU" "morning"⟩ none) := by
  refine ⟨?_, ?_, by decide⟩
  · obtain ⟨wall, hcore, hb1, hb2⟩ := primeCore_bounds now rnd 3600 8 11
      (some (default_tz_from_name (some (orHKT tzn)))) (by omega) (by omega) (by omega)
    refine ⟨wall, ?_, hb1, hb2⟩
    rw [resolve_EU_morning, hcore]
  · obtain ⟨wall, hcore, hb1, hb2, hb3⟩ := primeCore_bounds_hk now rnd
    refine ⟨wall, ?_, hb1, hb2, hb3⟩
    rw [resolve_EU_morning]
    rw [show default_tz_from_name (some (orHKT none)) = (28800 : Int) from by decide]
    rw [hcore]

/-- C7 witness: the amended window/non-constancy theorem instantiated at
`now = 0`, `rnd = 0`, caller timezone `America/Los_Angeles`. -/
theorem c7_eu_morning_window_witness :
    (∃ wall, resolve_time_spec 0 0 ⟨none, .primeKeyword "EU" "morning"⟩
        (some "America/Los_Angeles") =
        .ok (.aware wall 3600, "Europe/Berlin", true) ∧
      3600 * 8 ≤ wall % 86400 ∧ wall % 86400 < 3600 * 11) ∧
    (∃ wall, resolve_time_spec 0 0 ⟨none, .primeKeyword "EU" "morning"⟩ none =
        .ok (.aware wall 3600, "Europe/Berlin", true) ∧
      3600 * 8 ≤ wall % 86400 ∧ wall % 86400 < 3600 * 11 ∧
      (0 : Int) + 300 ≤ wall - 3600) ∧
    (resolve_time_spec 0 0 ⟨none, .primeKeyword "EU" "morning"⟩ none ≠
      resolve_time_spec 0 5 ⟨none, .primeKeyword "EU" "morning"⟩ none) :=
  c7_eu_morning_window 0 0 (some "America/Los_Angeles")

end XCli
